import Mathlib

/-!
Shallow embedding of the volatile-chat repository.

Crypto layer (crypto-module.js / crypto-browser.js): the AES-256-GCM and
PBKDF2 primitives are external library calls (Node `crypto`, Web Crypto);
they are modelled by an abstract `AEAD` bundle carrying the documented
contract of those primitives (deterministic KDF, ciphertext of the same
length as the plaintext, a 16-byte tag, decrypt inverts encrypt).  The
envelope packing / unpacking code of the repository is embedded literally.
Bytes are `Nat` values, with explicit `< 256` bounds where they matter.

Server layer (server.js): the per-connection message handler, the Redis
list queue (one `List Message` per recipient key) and the `clients` map.
JSON serialisation between the server and Redis is treated as transparent
(the server is the only writer of the queue, and every entry it writes is
the serialisation of a message, so the parse-failure catch branches are
dead).

Client layer (ghost-chat.js): reconnect backoff state and the incoming
message handler.
-/

namespace VolatileChat

/-! ### Constants (crypto-module.js / crypto-browser.js) -/

def IV_LENGTH : Nat := 12
def AUTH_TAG_LENGTH : Nat := 16
def SALT_LENGTH : Nat := 32
def KEY_LENGTH : Nat := 32

/-! ### Base64 (crypto-browser.js toBase64 / fromBase64, i.e. btoa / atob)

Characters are represented by their ASCII codes; 61 is the pad char. -/

def sixToChar (n : Nat) : Nat :=
  if n < 26 then 65 + n
  else if n < 52 then 97 + (n - 26)
  else if n < 62 then 48 + (n - 52)
  else if n = 62 then 43
  else 47

def charToSix (c : Nat) : Nat :=
  if 65 ≤ c ∧ c ≤ 90 then c - 65
  else if 97 ≤ c ∧ c ≤ 122 then c - 97 + 26
  else if 48 ≤ c ∧ c ≤ 57 then c - 48 + 52
  else if c = 43 then 62
  else 63

def encodeB64 : List Nat → List Nat
  | [] => []
  | [a] => [sixToChar (a / 4), sixToChar (a % 4 * 16), 61, 61]
  | [a, b] => [sixToChar (a / 4), sixToChar (a % 4 * 16 + b / 16), sixToChar (b % 16 * 4), 61]
  | a :: b :: c :: rest =>
      sixToChar (a / 4) :: sixToChar (a % 4 * 16 + b / 16) ::
      sixToChar (b % 16 * 4 + c / 64) :: sixToChar (c % 64) :: encodeB64 rest

def decodeB64 : List Nat → List Nat
  | c1 :: c2 :: c3 :: c4 :: rest =>
      if c3 = 61 then
        [charToSix c1 * 4 + charToSix c2 / 16]
      else if c4 = 61 then
        [charToSix c1 * 4 + charToSix c2 / 16,
         charToSix c2 % 16 * 16 + charToSix c3 / 4]
      else
        (charToSix c1 * 4 + charToSix c2 / 16) ::
        (charToSix c2 % 16 * 16 + charToSix c3 / 4) ::
        (charToSix c3 % 4 * 64 + charToSix c4) :: decodeB64 rest
  | _ => []

theorem charToSix_sixToChar : ∀ n, n < 64 → charToSix (sixToChar n) = n := by decide

theorem sixToChar_ne_pad : ∀ n, n < 64 → sixToChar n ≠ 61 := by decide

theorem decodeB64_encodeB64 (l : List Nat) (h : ∀ b ∈ l, b < 256) :
    decodeB64 (encodeB64 l) = l := by
  induction l using encodeB64.induct with
  | case1 => simp [encodeB64, decodeB64]
  | case2 a =>
      have ha : a < 256 := h a (by simp)
      have h1 : a / 4 < 64 := by omega
      have h2 : a % 4 * 16 < 64 := by omega
      simp [encodeB64, decodeB64,
        charToSix_sixToChar _ h1, charToSix_sixToChar _ h2] <;> omega
  | case3 a b =>
      have ha : a < 256 := h a (by simp)
      have hb : b < 256 := h b (by simp)
      have h1 : a / 4 < 64 := by omega
      have h2 : a % 4 * 16 + b / 16 < 64 := by omega
      have h3 : b % 16 * 4 < 64 := by omega
      simp [encodeB64, decodeB64, sixToChar_ne_pad _ h3,
        charToSix_sixToChar _ h1, charToSix_sixToChar _ h2,
        charToSix_sixToChar _ h3] <;> omega
  | case4 a b c rest ih =>
      have ha : a < 256 := h a (by simp)
      have hb : b < 256 := h b (by simp)
      have hc : c < 256 := h c (by simp)
      have h1 : a / 4 < 64 := by omega
      have h2 : a % 4 * 16 + b / 16 < 64 := by omega
      have h3 : b % 16 * 4 + c / 64 < 64 := by omega
      have h4 : c % 64 < 64 := by omega
      have hrest : ∀ x ∈ rest, x < 256 := by
        intro x hx
        exact h x (by simp [hx])
      simp [encodeB64, decodeB64, sixToChar_ne_pad _ h3, sixToChar_ne_pad _ h4,
        charToSix_sixToChar _ h1, charToSix_sixToChar _ h2,
        charToSix_sixToChar _ h3, charToSix_sixToChar _ h4, ih hrest] <;> omega

/-! ### Abstract authenticated-encryption primitive

`enc key iv pt = (ciphertext, tag)` and `dec key iv ct tag` model the
external AES-256-GCM calls; `kdf password salt` models PBKDF2.  The proof
fields state the documented contract of these primitives: PBKDF2 yields a
32-byte key, GCM yields a ciphertext of the plaintext's length and a
16-byte tag made of bytes, and decryption inverts encryption. -/

structure AEAD where
  enc : List Nat → List Nat → List Nat → List Nat × List Nat
  dec : List Nat → List Nat → List Nat → List Nat → Option (List Nat)
  kdf : String → List Nat → List Nat
  kdf_len : ∀ pw salt, (kdf pw salt).length = KEY_LENGTH
  ct_len : ∀ key iv pt, (enc key iv pt).1.length = pt.length
  tag_len : ∀ key iv pt, (enc key iv pt).2.length = AUTH_TAG_LENGTH
  enc_bytes : ∀ key iv pt, (∀ b ∈ pt, b < 256) →
    ∀ b ∈ (enc key iv pt).1 ++ (enc key iv pt).2, b < 256
  dec_enc : ∀ key iv pt, dec key iv (enc key iv pt).1 (enc key iv pt).2 = some pt

/-! ### Node crypto module (crypto-module.js)

Random values (salt, iv) are inputs of the embedding.  Thrown `TypeError`s
are `none`.  Plaintext is the UTF-8 byte list of the source's string. -/

def nodeEncrypt (A : AEAD) (key iv pt : List Nat) : Option (List Nat) :=
  if key.length ≠ KEY_LENGTH then none
  else
    let ct := (A.enc key iv pt).1
    let authTag := (A.enc key iv pt).2
    some (iv ++ authTag ++ ct)

def nodeDecrypt (A : AEAD) (key encrypted : List Nat) : Option (List Nat) :=
  if key.length ≠ KEY_LENGTH then none
  else if encrypted.length < IV_LENGTH + AUTH_TAG_LENGTH + 1 then none
  else
    let iv := encrypted.take IV_LENGTH
    let authTag := (encrypted.drop IV_LENGTH).take AUTH_TAG_LENGTH
    let ciphertext := encrypted.drop (IV_LENGTH + AUTH_TAG_LENGTH)
    A.dec key iv ciphertext authTag

def nodeEncryptWithPassword (A : AEAD) (salt iv pt : List Nat) (pw : String) :
    Option (List Nat) :=
  if pw = "" then none
  else
    let key := A.kdf pw salt
    (nodeEncrypt A key iv pt).map (fun encrypted => salt ++ encrypted)

def nodeDecryptWithPassword (A : AEAD) (payload : List Nat) (pw : String) :
    Option (List Nat) :=
  if payload.length < SALT_LENGTH + IV_LENGTH + AUTH_TAG_LENGTH + 1 then none
  else if pw = "" then none
  else
    let salt := payload.take SALT_LENGTH
    let encrypted := payload.drop SALT_LENGTH
    nodeDecrypt A (A.kdf pw salt) encrypted

/-! ### Browser crypto module (crypto-browser.js)

Web Crypto's `subtle.encrypt` returns ciphertext with the tag appended;
`subtle.decrypt` takes that concatenation and splits the trailing
`tagLength` bytes off as the tag. -/

def browserEncryptWithPassword (A : AEAD) (salt iv pt : List Nat) (pw : String) :
    List Nat :=
  let key := A.kdf pw salt
  let ciphertextWithTag := (A.enc key iv pt).1 ++ (A.enc key iv pt).2
  encodeB64 (salt ++ iv ++ ciphertextWithTag)

def browserDecryptWithPassword (A : AEAD) (payload : List Nat) (pw : String) :
    Option (List Nat) :=
  let data := decodeB64 payload
  if data.length < SALT_LENGTH + IV_LENGTH + AUTH_TAG_LENGTH + 1 then none
  else
    let salt := data.take SALT_LENGTH
    let iv := (data.drop SALT_LENGTH).take IV_LENGTH
    let ciphertext := data.drop (SALT_LENGTH + IV_LENGTH)
    A.dec (A.kdf pw salt) iv (ciphertext.take (ciphertext.length - AUTH_TAG_LENGTH))
      (ciphertext.drop (ciphertext.length - AUTH_TAG_LENGTH))

/-- Modelled from the spec: "one opaque text blob = text-safe encoding of
`salt(32B) ‖ nonce(12B) ‖ ciphertext+tag`", i.e. the bytes are salt, then
nonce, then ciphertext, then tag, in that order.  Stated for comparison
with the byte layout the source code actually produces. -/
def specEnvelopeBytes (A : AEAD) (salt iv pt : List Nat) (pw : String) : List Nat :=
  salt ++ iv ++ (A.enc (A.kdf pw salt) iv pt).1 ++ (A.enc (A.kdf pw salt) iv pt).2

/-- Concrete instance of the primitive contract, used to evaluate the
envelope code on concrete inputs. -/
def toyAEAD : AEAD where
  enc := fun _ _ pt => (pt, List.replicate 16 0)
  dec := fun _ _ ct tag => if tag = List.replicate 16 0 then some ct else none
  kdf := fun _ _ => List.replicate 32 0
  kdf_len := by intro pw salt; simp [KEY_LENGTH]
  ct_len := by intro key iv pt; simp
  tag_len := by intro key iv pt; simp [AUTH_TAG_LENGTH]
  enc_bytes := by
    intro key iv pt h b hb
    rcases List.mem_append.mp hb with hb1 | hb2
    · exact h b hb1
    · have := List.eq_of_mem_replicate hb2
      omega
  dec_enc := by intro key iv pt; simp

/-! ### Server data model (server.js)

A `Message` is the `chatMessage` object built on `send_message`; the JSON
field `from` is embedded as `sender` and `to` as `recipient` (both are
Lean keywords).  Queues
are the Redis lists `chat:<recipient>`, registry is the `clients` map,
`readyState` gives each socket's readyState (1 = OPEN). -/

structure Message where
  id : String
  sender : String
  recipient : String
  content : String
  mediaType : String
  timestamp : Nat
deriving DecidableEq

/-- Server-to-client frames. -/
inductive Frame where
  | pendingMessages (messages : List Message) (count : Nat)
  | newMessage (message : Message)
  | messageSent (id : String) (recipient : String) (timestamp : Nat)
  | messageSeen (messageId : String) (seenBy : String) (timestamp : Nat)
  | allMessagesSeen (seenBy : String) (count : Nat) (timestamp : Nat)
  | ackSeen (messageId : String) (deleted : Bool) (reason : Option String)
  | ackSeenAll (deletedCount : Nat)
  | error (error : String) (validTypes : Option (List String))
deriving DecidableEq

/-- Client-to-server frames after JSON parsing; absent fields are `none`. -/
inductive ClientFrame where
  | register (userId : Option String)
  | sendMessage (toUser : Option String) (content : Option String) (mediaType : Option String)
  | seen (messageId : Option String)
  | seenAll
  | unknown (ty : String)
deriving DecidableEq

/-- Effects of one handler run.  `terminate` models `ws.close()` /
`ws.terminate()`; the embedded handlers never emit it, mirroring the
source, and theorems state its absence explicitly. -/
inductive Action where
  | send (conn : Nat) (frame : Frame)
  | terminate (conn : Nat)
deriving DecidableEq

structure ServerState where
  clients : String → Option Nat
  queues : String → List Message
  readyState : Nat → Nat

/-- JS falsiness of an optional string field: missing, or empty. -/
def isFalsy : Option String → Bool
  | none => true
  | some s => s = ""

/-- Loop body of deleteMessageFromRedis: first queue entry whose id
matches. -/
def findById : List Message → String → Option Message
  | [], _ => none
  | m :: rest, mid => if m.id = mid then some m else findById rest mid

/-- Effect of `LREM key 1 raw` for the raw value found by the loop: the
first entry with the matching id is removed (an equal raw value cannot
occur earlier, since it would itself carry the matching id). -/
def removeFirstById : List Message → String → List Message
  | [], _ => []
  | m :: rest, mid => if m.id = mid then rest else m :: removeFirstById rest mid

/-- The `senders` Set of the seen_all handler: distinct `from` values in
insertion order. -/
def distinctSenders (l : List Message) : List String :=
  l.foldl (fun acc m => if m.sender ∈ acc then acc else acc ++ [m.sender]) []

/-- The recurring pattern `const w = clients.get(x); if (w && w.readyState
=== 1) w.send(frame)`. -/
def notifyIfLive (st : ServerState) (target : String) (f : Frame) : List Action :=
  match st.clients target with
  | some w => if st.readyState w = 1 then [Action.send w f] else []
  | none => []

def registerUpdate (st : ServerState) (u : String) (conn : Nat) : ServerState :=
  { st with clients := fun k => if k = u then some conn else st.clients k }

def queueUpdate (st : ServerState) (k0 : String) (q : List Message) : ServerState :=
  { st with queues := fun k => if k = k0 then q else st.queues k }

/-- One run of the `ws.on("message")` handler.  `conn` is the receiving
socket, `connUser` the closure variable `userId`, `raw` the parse result
(`none` = JSON.parse threw), `freshId` the uuidv4() value, `now` the
Date.now() value.  Returns the new store state, the new `userId` closure
value, and the emitted actions in order. -/
def handleFrame (st : ServerState) (conn : Nat) (connUser : Option String)
    (raw : Option ClientFrame) (freshId : String) (now : Nat) :
    ServerState × Option String × List Action :=
  match raw with
  | none => (st, connUser, [Action.send conn (Frame.error "JSON inválido" none)])
  | some (ClientFrame.register uid) =>
      if isFalsy uid then
        (st, connUser, [Action.send conn (Frame.error "userId requerido" none)])
      else
        let u := uid.getD ""
        let st1 := registerUpdate st u conn
        let pending := st1.queues u
        (st1, some u,
          if pending.length > 0 then
            [Action.send conn (Frame.pendingMessages pending pending.length)]
          else [])
  | some (ClientFrame.sendMessage toUser content mediaType) =>
      match connUser with
      | none => (st, connUser, [Action.send conn (Frame.error "Regístrate primero" none)])
      | some u =>
          if isFalsy toUser || isFalsy content then
            (st, connUser,
              [Action.send conn
                (Frame.error "Campos \u0027to\u0027 y \u0027content\u0027 requeridos" none)])
          else
            let m : Message :=
              { id := freshId, sender := u, recipient := toUser.getD "",
                content := content.getD "",
                mediaType := if isFalsy mediaType then "text" else mediaType.getD "",
                timestamp := now }
            let st1 := queueUpdate st m.recipient (st.queues m.recipient ++ [m])
            (st1, connUser,
              [Action.send conn (Frame.messageSent m.id m.recipient m.timestamp)] ++
                notifyIfLive st m.recipient (Frame.newMessage m))
  | some (ClientFrame.seen mid) =>
      match connUser with
      | none => (st, connUser, [Action.send conn (Frame.error "Regístrate primero" none)])
      | some u =>
          if isFalsy mid then
            (st, connUser, [Action.send conn (Frame.error "messageId requerido" none)])
          else
            let msgId := mid.getD ""
            match findById (st.queues u) msgId with
            | some m =>
                let st1 := queueUpdate st u (removeFirstById (st.queues u) msgId)
                (st1, connUser,
                  notifyIfLive st m.sender (Frame.messageSeen msgId u now) ++
                    [Action.send conn (Frame.ackSeen msgId true none)])
            | none =>
                (st, connUser,
                  [Action.send conn
                    (Frame.ackSeen msgId false (some "Mensaje no encontrado en la cola"))])
  | some ClientFrame.seenAll =>
      match connUser with
      | none => (st, connUser, [Action.send conn (Frame.error "Regístrate primero" none)])
      | some u =>
          let allRaw := st.queues u
          let st1 := queueUpdate st u []
          (st1, connUser,
            ((distinctSenders allRaw).map
              (fun s => notifyIfLive st s (Frame.allMessagesSeen u allRaw.length now))).flatten ++
              [Action.send conn (Frame.ackSeenAll allRaw.length)])
  | some (ClientFrame.unknown ty) =>
      (st, connUser,
        [Action.send conn
          (Frame.error ("Tipo de mensaje desconocido: " ++ ty)
            (some ["register", "send_message", "seen", "seen_all"]))])

/-- The `ws.on("close")` handler: `if (userId) clients.delete(userId)`. -/
def handleClose (st : ServerState) (connUser : Option String) : ServerState :=
  match connUser with
  | none => st
  | some u => { st with clients := fun k => if k = u then none else st.clients k }

/-! ### Client session controller (ghost-chat.js) -/

def RECONNECT_BASE_MS : Nat := 1000
def RECONNECT_MAX_MS : Nat := 15000

/-- The delay expression of scheduleReconnect:
`Math.min(RECONNECT_BASE_MS * Math.pow(2, reconnectAttempts), RECONNECT_MAX_MS)`. -/
def reconnectDelay (attempts : Nat) : Nat :=
  min (RECONNECT_BASE_MS * 2 ^ attempts) RECONNECT_MAX_MS

/-- Client connection-lifecycle state of the ghost-chat module. -/
structure ClientConn where
  reconnectAttempts : Nat
  reconnectTimer : Bool
  isConnected : Bool
deriving DecidableEq

/-- scheduleReconnect: no-op when a timer is pending, otherwise computes
the delay from the current attempt count and increments it. -/
def scheduleReconnect (c : ClientConn) : ClientConn × Option Nat :=
  if c.reconnectTimer then (c, none)
  else
    ({ c with reconnectTimer := true, reconnectAttempts := c.reconnectAttempts + 1 },
      some (reconnectDelay c.reconnectAttempts))

/-- The `open` listener: `isConnected = true; reconnectAttempts = 0`. -/
def onOpen (c : ClientConn) : ClientConn :=
  { c with isConnected := true, reconnectAttempts := 0 }

/-- The timer callback body: `reconnectTimer = null` before reconnecting. -/
def onReconnectTimerFire (c : ClientConn) : ClientConn :=
  { c with reconnectTimer := false }

/-- Visible effects of handleIncomingMessage. -/
inductive ClientAction where
  | render (text : String) (label : String)
  | sendSeen (messageId : String)
deriving DecidableEq

/-- Client-side session state relevant to handleIncomingMessage: the bound
alias and whether `ws && ws.readyState === WebSocket.OPEN`. -/
structure GhostState where
  userId : String
  wsOpen : Bool
deriving DecidableEq

/-- handleIncomingMessage (ghost-chat.js): `decrypted` is the result of the
awaited CryptoBrowser.decryptWithPassword call (`none` = it threw).  The
message is rendered (a fixed placeholder on decrypt failure) and, when
labelled `received` and the socket is open, a seen frame is sent. -/
def handleIncomingMessage (g : GhostState) (decrypted : Option String)
    (chatMsg : Message) : List ClientAction :=
  let displayText := match decrypted with
    | some t => t
    | none => "Ruido ilegible"
  let label := if chatMsg.sender = g.userId then "sent" else "received"
  [ClientAction.render displayText label] ++
    (if label = "received" ∧ g.wsOpen = true then
      [ClientAction.sendSeen chatMsg.id]
    else [])

/-! ### Helper lemmas about the queue-scan helpers -/

theorem findById_some {l : List Message} {mid : String} {m : Message}
    (h : findById l mid = some m) :
    ∃ l1 l2, l = l1 ++ m :: l2 ∧ m.id = mid ∧ (∀ x ∈ l1, x.id ≠ mid) ∧
      removeFirstById l mid = l1 ++ l2 := by
  induction l with
  | nil => simp [findById] at h
  | cons a rest ih =>
      by_cases ha : a.id = mid
      · simp only [findById, if_pos ha, Option.some.injEq] at h
        subst h
        exact ⟨[], rest, by simp, ha, by simp, by simp [removeFirstById, ha]⟩
      · simp only [findById, if_neg ha] at h
        obtain ⟨l1, l2, hl, hid, hnone, hrem⟩ := ih h
        refine ⟨a :: l1, l2, by simp [hl], hid, ?_, ?_⟩
        · intro x hx
          rcases List.mem_cons.mp hx with hx1 | hx2
          · simpa [hx1] using ha
          · exact hnone x hx2
        · simp [removeFirstById, ha, hrem]

theorem findById_none {l : List Message} {mid : String}
    (h : findById l mid = none) : ∀ m ∈ l, m.id ≠ mid := by
  induction l with
  | nil => simp
  | cons a rest ih =>
      by_cases ha : a.id = mid
      · simp [findById, ha] at h
      · simp only [findById, if_neg ha] at h
        intro m hm
        rcases List.mem_cons.mp hm with hm1 | hm2
        · simpa [hm1] using ha
        · exact ih h m hm2

/-- C2: for a registered caller, a `seen` frame with a valid id removes at
most one message — the first whose id matches — from the caller's own
queue; when one is found the original sender is notified if currently
connected and the caller gets `ack_seen deleted:true`; when none matches
the queue and the rest of the state are untouched and the caller gets
`ack_seen deleted:false` with a reason — not an `error` frame. -/
theorem seen_removes_at_most_one (st : ServerState) (conn : Nat) (u mid fid : String)
    (now : Nat) (st1 : ServerState) (cu1 : Option String) (outs : List Action)
    (hmid : mid ≠ "")
    (h : handleFrame st conn (some u) (some (ClientFrame.seen (some mid))) fid now =
      (st1, cu1, outs)) :
    cu1 = some u ∧ st1.clients = st.clients ∧ st1.readyState = st.readyState ∧
    (∀ k, k ≠ u → st1.queues k = st.queues k) ∧
    ((∃ l1 m l2, st.queues u = l1 ++ m :: l2 ∧ m.id = mid ∧ (∀ x ∈ l1, x.id ≠ mid) ∧
        st1.queues u = l1 ++ l2 ∧
        outs = notifyIfLive st m.sender (Frame.messageSeen mid u now) ++
          [Action.send conn (Frame.ackSeen mid true none)]) ∨
      ((∀ m ∈ st.queues u, m.id ≠ mid) ∧ st1.queues u = st.queues u ∧
        outs = [Action.send conn
          (Frame.ackSeen mid false (some "Mensaje no encontrado en la cola"))])) := by
  cases hf : findById (st.queues u) mid with
  | some m =>
      simp [handleFrame, isFalsy, hmid, hf, Prod.ext_iff] at h
      obtain ⟨h1, h2, h3⟩ := h
      subst h1 h2 h3
      obtain ⟨l1, l2, hl, hid, hnone, hrem⟩ := findById_some hf
      refine ⟨rfl, rfl, rfl, ?_, Or.inl ⟨l1, m, l2, hl, hid, hnone, ?_, rfl⟩⟩
      · intro k hk
        simp [queueUpdate, hk]
      · simp [queueUpdate, hrem]
  | none =>
      simp [handleFrame, isFalsy, hmid, hf, Prod.ext_iff] at h
      obtain ⟨h1, h2, h3⟩ := h
      subst h1 h2 h3
      exact ⟨rfl, rfl, rfl, fun k _ => rfl,
        Or.inr ⟨findById_none hf, rfl, rfl⟩⟩

/-- C2 witness: a concrete queue with two messages; `seen` removes exactly
the first matching one, notifies the connected sender, acks the caller. -/
theorem seen_removes_at_most_one_witness :
    (let mW : Message :=
       { id := "m1", sender := "alice", recipient := "bob",
         content := "c1", mediaType := "text", timestamp := 5 }
     let mX : Message :=
       { id := "m2", sender := "alice", recipient := "bob",
         content := "c2", mediaType := "text", timestamp := 6 }
     let st : ServerState :=
       { clients := fun k => if k = "alice" then some 7 else if k = "bob" then some 2 else none,
         queues := fun k => if k = "bob" then [mW, mX] else [],
         readyState := fun _ => 1 }
     let r := handleFrame st 2 (some "bob") (some (ClientFrame.seen (some "m1"))) "f" 9
     r.2.1 = some "bob" ∧ r.1.clients = st.clients ∧ r.1.readyState = st.readyState ∧
     (∀ k, k ≠ "bob" → r.1.queues k = st.queues k) ∧
     ((∃ l1 m l2, st.queues "bob" = l1 ++ m :: l2 ∧ m.id = "m1" ∧
        (∀ x ∈ l1, x.id ≠ "m1") ∧ r.1.queues "bob" = l1 ++ l2 ∧
        r.2.2 = notifyIfLive st m.sender (Frame.messageSeen "m1" "bob" 9) ++
          [Action.send 2 (Frame.ackSeen "m1" true none)]) ∨
      ((∀ m ∈ st.queues "bob", m.id ≠ "m1") ∧ r.1.queues "bob" = st.queues "bob" ∧
        r.2.2 = [Action.send 2
          (Frame.ackSeen "m1" false (some "Mensaje no encontrado en la cola"))]))) := by
  exact seen_removes_at_most_one _ 2 "bob" "m1" "f" 9 _ _ _ (by decide) rfl

/-- C4: a `register` frame with a non-empty identity binds the identity to
the connection, leaves every queue untouched, and pushes the identity's
entire pending queue, in insertion order with its length as count, as one
batched `pending_messages` frame sent only when the queue is non-empty. -/
theorem register_flushes_queue (st : ServerState) (conn : Nat) (cu : Option String)
    (u fid : String) (now : Nat) (st1 : ServerState) (cu1 : Option String)
    (outs : List Action) (hu : u ≠ "")
    (h : handleFrame st conn cu (some (ClientFrame.register (some u))) fid now =
      (st1, cu1, outs)) :
    st1.clients u = some conn ∧ (∀ v, v ≠ u → st1.clients v = st.clients v) ∧
    st1.queues = st.queues ∧ st1.readyState = st.readyState ∧ cu1 = some u ∧
    outs = (if st.queues u = [] then []
      else [Action.send conn (Frame.pendingMessages (st.queues u) (st.queues u).length)]) := by
  simp [handleFrame, isFalsy, hu, Prod.ext_iff] at h
  obtain ⟨h1, h2, h3⟩ := h
  subst h1 h2 h3
  refine ⟨by simp [registerUpdate], ?_, rfl, rfl, rfl, ?_⟩
  · intro v hv
    simp [registerUpdate, hv]
  · cases hq : st.queues u with
    | nil => simp [registerUpdate, hq]
    | cons a rest => simp [registerUpdate, hq]

/-- C4 witness: registering with two pending messages flushes both in
order without deleting them. -/
theorem register_flushes_queue_witness :
    (let mW : Message :=
       { id := "m1", sender := "alice", recipient := "bob",
         content := "c1", mediaType := "text", timestamp := 5 }
     let mX : Message :=
       { id := "m2", sender := "carol", recipient := "bob",
         content := "c2", mediaType := "text", timestamp := 6 }
     let st : ServerState :=
       { clients := fun _ => none,
         queues := fun k => if k = "bob" then [mW, mX] else [],
         readyState := fun _ => 1 }
     let r := handleFrame st 2 none (some (ClientFrame.register (some "bob"))) "f" 9
     r.1.clients "bob" = some 2 ∧ (∀ v, v ≠ "bob" → r.1.clients v = st.clients v) ∧
     r.1.queues = st.queues ∧ r.1.readyState = st.readyState ∧ r.2.1 = some "bob" ∧
     r.2.2 = (if st.queues "bob" = [] then []
       else [Action.send 2
         (Frame.pendingMessages (st.queues "bob") (st.queues "bob").length)])) := by
  exact register_flushes_queue _ 2 none "bob" "f" 9 _ _ _ (by decide) rfl

/-! ### Helper lemmas about the senders Set of seen_all -/

theorem distinctSenders_core_nodup (l : List Message) :
    ∀ acc : List String, acc.Nodup →
      (l.foldl (fun acc m => if m.sender ∈ acc then acc else acc ++ [m.sender]) acc).Nodup := by
  induction l with
  | nil => intro acc h; simpa using h
  | cons a rest ih =>
      intro acc h
      simp only [List.foldl_cons]
      by_cases hm : a.sender ∈ acc
      · simpa [hm] using ih acc h
      · have hacc : (acc ++ [a.sender]).Nodup := by
          simp [List.nodup_append, h, hm]
        simpa [hm] using ih (acc ++ [a.sender]) hacc

theorem distinctSenders_core_mem (l : List Message) :
    ∀ (acc : List String) (s : String),
      s ∈ l.foldl (fun acc m => if m.sender ∈ acc then acc else acc ++ [m.sender]) acc ↔
        s ∈ acc ∨ ∃ m ∈ l, m.sender = s := by
  induction l with
  | nil => intro acc s; simp
  | cons a rest ih =>
      intro acc s
      simp only [List.foldl_cons]
      by_cases hm : a.sender ∈ acc
      · rw [if_pos hm, ih]
        constructor
        · rintro (hs | hs)
          · exact Or.inl hs
          · exact Or.inr (by simpa using Or.inr hs)
        · rintro (hs | hs)
          · exact Or.inl hs
          · rcases List.mem_cons.mp hs.choose_spec.1 with h1 | h2
            · exact Or.inl (by rw [← hs.choose_spec.2, h1]; exact hm)
            · exact Or.inr ⟨hs.choose, h2, hs.choose_spec.2⟩
      · rw [if_neg hm, ih]
        constructor
        · rintro (hs | hs)
          · rcases List.mem_append.mp hs with h1 | h2
            · exact Or.inl h1
            · exact Or.inr ⟨a, by simp, by simpa using (List.mem_singleton.mp h2).symm⟩
          · exact Or.inr (by simpa using Or.inr hs)
        · rintro (hs | hs)
          · exact Or.inl (List.mem_append.mpr (Or.inl hs))
          · rcases List.mem_cons.mp hs.choose_spec.1 with h1 | h2
            · refine Or.inl (List.mem_append.mpr (Or.inr ?_))
              rw [← hs.choose_spec.2, h1]
              simp
            · exact Or.inr ⟨hs.choose, h2, hs.choose_spec.2⟩

theorem distinctSenders_nodup (l : List Message) : (distinctSenders l).Nodup :=
  distinctSenders_core_nodup l [] List.nodup_nil

theorem mem_distinctSenders (l : List Message) (s : String) :
    s ∈ distinctSenders l ↔ ∃ m ∈ l, m.sender = s := by
  rw [distinctSenders, distinctSenders_core_mem l [] s]
  simp

/-- Recognises an `all_messages_seen` push. -/
def isAllSeenFrame : Action → Bool
  | Action.send _ (Frame.allMessagesSeen _ _ _) => true
  | _ => false

/-- The handler notifies a sender only when it has a live OPEN socket. -/
def isLive (st : ServerState) (s : String) : Bool :=
  match st.clients s with
  | some w => st.readyState w = 1
  | none => false

theorem countP_notify_flatten (st : ServerState) (seenBy : String) (count now : Nat)
    (ss : List String) :
    ((ss.map (fun s => notifyIfLive st s (Frame.allMessagesSeen seenBy count now))).flatten).countP
        isAllSeenFrame = (ss.filter (isLive st)).length := by
  induction ss with
  | nil => simp
  | cons a rest ih =>
      simp only [List.map_cons, List.flatten_cons, List.countP_append, ih, List.filter_cons]
      cases hc : st.clients a with
      | none => simp [notifyIfLive, isLive, hc]
      | some w =>
          by_cases hr : st.readyState w = 1
          · simp [notifyIfLive, isLive, hc, hr, List.countP_cons, isAllSeenFrame]
            omega
          · simp [notifyIfLive, isLive, hc, hr]

/-- C3 (amended): for a registered caller, `seen_all` drains the caller's
queue, acks the caller with the total count N (possibly 0), and among the
K distinct senders exactly those with a currently connected OPEN socket
receive exactly one `all_messages_seen` frame, carrying the total N rather
than their own count; disconnected senders receive nothing. -/
theorem seen_all_drains_and_notifies (st : ServerState) (conn : Nat) (u fid : String)
    (now : Nat) (st1 : ServerState) (cu1 : Option String) (outs : List Action)
    (h : handleFrame st conn (some u) (some ClientFrame.seenAll) fid now =
      (st1, cu1, outs)) :
    cu1 = some u ∧ st1.clients = st.clients ∧ st1.readyState = st.readyState ∧
    st1.queues u = [] ∧ (∀ k, k ≠ u → st1.queues k = st.queues k) ∧
    outs = ((distinctSenders (st.queues u)).map
        (fun s => notifyIfLive st s
          (Frame.allMessagesSeen u (st.queues u).length now))).flatten ++
      [Action.send conn (Frame.ackSeenAll (st.queues u).length)] ∧
    (distinctSenders (st.queues u)).Nodup ∧
    (∀ s, s ∈ distinctSenders (st.queues u) ↔ ∃ m ∈ st.queues u, m.sender = s) ∧
    (∀ s w, s ∈ distinctSenders (st.queues u) → st.clients s = some w →
      st.readyState w = 1 →
      Action.send w (Frame.allMessagesSeen u (st.queues u).length now) ∈ outs) ∧
    outs.countP isAllSeenFrame =
      ((distinctSenders (st.queues u)).filter (isLive st)).length := by
  simp only [handleFrame, Prod.mk.injEq] at h
  obtain ⟨h1, h2, h3⟩ := h
  subst h1 h2 h3
  refine ⟨rfl, rfl, rfl, by simp [queueUpdate], ?_, rfl,
    distinctSenders_nodup _, fun s => mem_distinctSenders _ s, ?_, ?_⟩
  · intro k hk
    simp [queueUpdate, hk]
  · intro s w hs hcl hrs
    refine List.mem_append.mpr (Or.inl (List.mem_flatten.mpr
      ⟨notifyIfLive st s (Frame.allMessagesSeen u (st.queues u).length now),
        List.mem_map_of_mem _ hs, ?_⟩))
    simp [notifyIfLive, hcl, hrs]
  · rw [List.countP_append, countP_notify_flatten]
    simp [isAllSeenFrame]

/-- C3 witness: three messages from two connected senders; each sender is
notified once with the total 3, the caller is acked with 3. -/
theorem seen_all_drains_and_notifies_witness :
    (let mW : Message :=
       { id := "m1", sender := "alice", recipient := "bob",
         content := "c1", mediaType := "text", timestamp := 5 }
     let mX : Message :=
       { id := "m2", sender := "carol", recipient := "bob",
         content := "c2", mediaType := "text", timestamp := 6 }
     let mY : Message :=
       { id := "m3", sender := "alice", recipient := "bob",
         content := "c3", mediaType := "text", timestamp := 7 }
     let st : ServerState :=
       { clients := fun k => if k = "alice" then some 7
           else if k = "carol" then some 8 else none,
         queues := fun k => if k = "bob" then [mW, mX, mY] else [],
         readyState := fun _ => 1 }
     let r := handleFrame st 2 (some "bob") (some ClientFrame.seenAll) "f" 9
     r.2.1 = some "bob" ∧ r.1.clients = st.clients ∧ r.1.readyState = st.readyState ∧
     r.1.queues "bob" = [] ∧ (∀ k, k ≠ "bob" → r.1.queues k = st.queues k) ∧
     r.2.2 = ((distinctSenders (st.queues "bob")).map
         (fun s => notifyIfLive st s
           (Frame.allMessagesSeen "bob" (st.queues "bob").length 9))).flatten ++
       [Action.send 2 (Frame.ackSeenAll (st.queues "bob").length)] ∧
     (distinctSenders (st.queues "bob")).Nodup ∧
     (∀ s, s ∈ distinctSenders (st.queues "bob") ↔ ∃ m ∈ st.queues "bob", m.sender = s) ∧
     (∀ s w, s ∈ distinctSenders (st.queues "bob") → st.clients s = some w →
       st.readyState w = 1 →
       Action.send w (Frame.allMessagesSeen "bob" (st.queues "bob").length 9) ∈ r.2.2) ∧
     r.2.2.countP isAllSeenFrame =
       ((distinctSenders (st.queues "bob")).filter (isLive st)).length) := by
  exact seen_all_drains_and_notifies _ 2 "bob" "f" 9 _ _ _ rfl

/-- C3 counterexample: one queued message whose sender is not connected;
K = 1 distinct sender, yet the output contains no `all_messages_seen`
frame at all, only the caller's ack — so not every one of the K distinct
senders receives the notification. -/
theorem seen_all_offline_sender_counterexample :
    (let mW : Message :=
       { id := "m1", sender := "alice", recipient := "bob",
         content := "c1", mediaType := "text", timestamp := 5 }
     let st : ServerState :=
       { clients := fun _ => none,
         queues := fun k => if k = "bob" then [mW] else [],
         readyState := fun _ => 0 }
     let r := handleFrame st 2 (some "bob") (some ClientFrame.seenAll) "f" 9
     distinctSenders (st.queues "bob") = ["alice"] ∧
     r.2.2 = [Action.send 2 (Frame.ackSeenAll 1)] ∧
     (∀ a ∈ r.2.2, isAllSeenFrame a = false)) := by
  exact ⟨rfl, rfl, by decide⟩

/-- C6 (amended): when a connection whose closure variable holds identity
u closes, the registry entry for u is removed unconditionally — even if a
newer connection has since re-registered u, the mapping is deleted rather
than preserved; other identities and all queues are untouched, and a close
of a never-registered connection changes nothing. -/
theorem close_removes_identity_unconditionally (st : ServerState) (u v : String)
    (hv : v ≠ u) :
    (handleClose st (some u)).clients u = none ∧
    (handleClose st (some u)).clients v = st.clients v ∧
    (handleClose st (some u)).queues = st.queues ∧
    handleClose st none = st := by
  exact ⟨by simp [handleClose], by simp [handleClose, hv], rfl, rfl⟩

/-- C6 amended-claim witness at concrete identities. -/
theorem close_removes_identity_unconditionally_witness :
    (let st : ServerState :=
       { clients := fun k => if k = "u" then some 1 else if k = "v" then some 3 else none,
         queues := fun _ => [], readyState := fun _ => 1 }
     (handleClose st (some "u")).clients "u" = none ∧
     (handleClose st (some "u")).clients "v" = st.clients "v" ∧
     (handleClose st (some "u")).queues = st.queues ∧
     handleClose st none = st) :=
  close_removes_identity_unconditionally _ "u" "v" (by decide)

/-- C6 counterexample: connection 1 registers u, connection 2 then
registers the same u (overwriting the mapping to connection 2); when the
older connection 1 closes, its handler deletes the entry anyway, so the
newer connection's registration does not survive — the close is not the
no-op the claim requires. -/
theorem close_after_takeover_counterexample :
    (let st0 : ServerState :=
       { clients := fun _ => none, queues := fun _ => [], readyState := fun _ => 1 }
     let r1 := handleFrame st0 1 none (some (ClientFrame.register (some "u"))) "f1" 0
     let r2 := handleFrame r1.1 2 none (some (ClientFrame.register (some "u"))) "f2" 0
     r1.2.1 = some "u" ∧ r2.1.clients "u" = some 2 ∧
     (handleClose r2.1 r1.2.1).clients "u" = none) := by
  exact ⟨rfl, rfl, rfl⟩

/-- Parse-level shape tests used to state C7. -/
def isRegisterFrame : Option ClientFrame → Bool
  | some (ClientFrame.register _) => true
  | _ => false

/-- Structurally invalid input: unparseable JSON, a frame of unknown type,
or a frame missing (or carrying an empty, hence falsy) required field. -/
def structurallyInvalid : Option ClientFrame → Bool
  | none => true
  | some (ClientFrame.register uid) => isFalsy uid
  | some (ClientFrame.sendMessage toUser content _) => isFalsy toUser || isFalsy content
  | some (ClientFrame.seen mid) => isFalsy mid
  | some ClientFrame.seenAll => false
  | some (ClientFrame.unknown _) => true

/-- C7: any frame on an unregistered connection other than register, and
any structurally invalid frame, draws a single typed `error` frame to the
caller, never a termination of the connection, and leaves the registry,
the queues and the connection's bound identity unchanged. -/
theorem invalid_frames_get_error (st : ServerState) (conn : Nat) (cu : Option String)
    (raw : Option ClientFrame) (fid : String) (now : Nat)
    (h : (cu = none ∧ isRegisterFrame raw = false) ∨ structurallyInvalid raw = true) :
    (handleFrame st conn cu raw fid now).1 = st ∧
    (handleFrame st conn cu raw fid now).2.1 = cu ∧
    (∃ e vt, (handleFrame st conn cu raw fid now).2.2 =
      [Action.send conn (Frame.error e vt)]) ∧
    (∀ c, Action.terminate c ∉ (handleFrame st conn cu raw fid now).2.2) := by
  match raw with
  | none =>
      exact ⟨rfl, rfl, ⟨"JSON inválido", none, rfl⟩, by simp [handleFrame]⟩
  | some (ClientFrame.register uid) =>
      have hinv : isFalsy uid = true := by
        rcases h with ⟨_, hreg⟩ | hinv
        · simp [isRegisterFrame] at hreg
        · simpa [structurallyInvalid] using hinv
      rw [show handleFrame st conn cu (some (ClientFrame.register uid)) fid now =
        (st, cu, [Action.send conn (Frame.error "userId requerido" none)]) from by
          simp [handleFrame, hinv]]
      exact ⟨rfl, rfl, ⟨_, _, rfl⟩, by simp⟩
  | some (ClientFrame.sendMessage toUser content mediaType) =>
      match cu with
      | none =>
          exact ⟨rfl, rfl, ⟨"Regístrate primero", none, rfl⟩, by simp [handleFrame]⟩
      | some u =>
          have hinv : (isFalsy toUser || isFalsy content) = true := by
            rcases h with ⟨hcu, _⟩ | hinv
            · exact absurd hcu (by simp)
            · simpa [structurallyInvalid] using hinv
          rw [show handleFrame st conn (some u)
              (some (ClientFrame.sendMessage toUser content mediaType)) fid now =
            (st, some u, [Action.send conn
              (Frame.error "Campos \u0027to\u0027 y \u0027content\u0027 requeridos" none)]) from by
              simp [handleFrame, hinv]]
          exact ⟨rfl, rfl, ⟨_, _, rfl⟩, by simp⟩
  | some (ClientFrame.seen mid) =>
      match cu with
      | none =>
          exact ⟨rfl, rfl, ⟨"Regístrate primero", none, rfl⟩, by simp [handleFrame]⟩
      | some u =>
          have hinv : isFalsy mid = true := by
            rcases h with ⟨hcu, _⟩ | hinv
            · exact absurd hcu (by simp)
            · simpa [structurallyInvalid] using hinv
          rw [show handleFrame st conn (some u) (some (ClientFrame.seen mid)) fid now =
            (st, some u, [Action.send conn (Frame.error "messageId requerido" none)]) from by
              simp [handleFrame, hinv]]
          exact ⟨rfl, rfl, ⟨_, _, rfl⟩, by simp⟩
  | some ClientFrame.seenAll =>
      have hcu : cu = none := by
        rcases h with ⟨hcu, _⟩ | hinv
        · exact hcu
        · simp [structurallyInvalid] at hinv
      subst hcu
      exact ⟨rfl, rfl, ⟨"Regístrate primero", none, rfl⟩, by simp [handleFrame]⟩
  | some (ClientFrame.unknown ty) =>
      exact ⟨rfl, rfl, ⟨"Tipo de mensaje desconocido: " ++ ty,
        some ["register", "send_message", "seen", "seen_all"], rfl⟩, by simp [handleFrame]⟩

/-- C7 witness: an unregistered connection sending seen_all gets one typed
error frame and no state change or termination. -/
theorem invalid_frames_get_error_witness :
    (let st : ServerState :=
       { clients := fun _ => none, queues := fun _ => [], readyState := fun _ => 1 }
     (handleFrame st 4 none (some ClientFrame.seenAll) "f" 0).1 = st ∧
     (handleFrame st 4 none (some ClientFrame.seenAll) "f" 0).2.1 = none ∧
     (∃ e vt, (handleFrame st 4 none (some ClientFrame.seenAll) "f" 0).2.2 =
       [Action.send 4 (Frame.error e vt)]) ∧
     (∀ c, Action.terminate c ∉ (handleFrame st 4 none (some ClientFrame.seenAll) "f" 0).2.2)) :=
  invalid_frames_get_error _ 4 none (some ClientFrame.seenAll) "f" 0 (Or.inl ⟨rfl, by decide⟩)

/-- C8: while no timer is pending, scheduleReconnect emits the delay
min(1000 ms * 2 ^ attempts, 15000 ms) and increments the attempt counter,
so consecutive failed attempts yield non-decreasing delays bounded by the
cap; a successful open resets the counter to 0, making the next scheduled
delay the base 1000 ms. -/
theorem reconnect_backoff_spec (c : ClientConn) (h : c.reconnectTimer = false) (n : Nat) :
    (scheduleReconnect c).2 = some (min (1000 * 2 ^ c.reconnectAttempts) 15000) ∧
    (scheduleReconnect c).1.reconnectAttempts = c.reconnectAttempts + 1 ∧
    reconnectDelay n ≤ reconnectDelay (n + 1) ∧
    reconnectDelay n ≤ 15000 ∧
    (scheduleReconnect (onOpen c)).2 = some 1000 := by
  refine ⟨?_, ?_, ?_, ?_, ?_⟩
  · simp [scheduleReconnect, h, reconnectDelay, RECONNECT_BASE_MS, RECONNECT_MAX_MS]
  · simp [scheduleReconnect, h]
  · simp only [reconnectDelay]
    exact min_le_min
      (Nat.mul_le_mul_left _ (Nat.pow_le_pow_right (by norm_num) (Nat.le_succ n))) le_rfl
  · simp [reconnectDelay, RECONNECT_MAX_MS]
  · simp [scheduleReconnect, onOpen, h, reconnectDelay, RECONNECT_BASE_MS, RECONNECT_MAX_MS]

/-- C8 witness at a concrete connection state and attempt count. -/
theorem reconnect_backoff_spec_witness :
    (let c : ClientConn :=
       { reconnectAttempts := 2, reconnectTimer := false, isConnected := false }
     (scheduleReconnect c).2 = some (min (1000 * 2 ^ c.reconnectAttempts) 15000) ∧
     (scheduleReconnect c).1.reconnectAttempts = c.reconnectAttempts + 1 ∧
     reconnectDelay 5 ≤ reconnectDelay (5 + 1) ∧
     reconnectDelay 5 ≤ 15000 ∧
     (scheduleReconnect (onOpen c)).2 = some 1000) :=
  reconnect_backoff_spec
    { reconnectAttempts := 2, reconnectTimer := false, isConnected := false } rfl 5

/-- C9 (amended): on an incoming message whose sender differs from the
client's own identity, while the socket is open, the client renders the
message (its decryption, or the fixed placeholder when decryption failed)
and immediately emits the seen acknowledgement for that id, with no
confirmation step in between. -/
theorem auto_seen_on_render (g : GhostState) (decrypted : Option String) (m : Message)
    (hs : m.sender ≠ g.userId) (ho : g.wsOpen = true) :
    handleIncomingMessage g decrypted m =
      [ClientAction.render (decrypted.getD "Ruido ilegible") "received",
       ClientAction.sendSeen m.id] := by
  cases decrypted with
  | none => simp [handleIncomingMessage, hs, ho]
  | some t => simp [handleIncomingMessage, hs, ho]

/-- C9 amended-claim witness: including the decryption-failure case. -/
theorem auto_seen_on_render_witness :
    (let g : GhostState := { userId := "bob", wsOpen := true }
     let m : Message :=
       { id := "m1", sender := "alice", recipient := "bob",
         content := "c1", mediaType := "text", timestamp := 5 }
     handleIncomingMessage g none m =
       [ClientAction.render ((none : Option String).getD "Ruido ilegible") "received",
        ClientAction.sendSeen m.id]) :=
  auto_seen_on_render { userId := "bob", wsOpen := true } none
    { id := "m1", sender := "alice", recipient := "bob",
      content := "c1", mediaType := "text", timestamp := 5 } (by decide) rfl

/-- C9 counterexample: a message addressed to the client's own identity
but also sent from it (from = to = own alias) is rendered as `sent` and no
seen acknowledgement is emitted, although the claim requires one for every
received message addressed to self. -/
theorem auto_seen_self_message_counterexample :
    (let g : GhostState := { userId := "alice", wsOpen := true }
     let m : Message :=
       { id := "m1", sender := "alice", recipient := "alice",
         content := "c1", mediaType := "text", timestamp := 5 }
     m.recipient = g.userId ∧
     ClientAction.sendSeen m.id ∉ handleIncomingMessage g (some "hola") m) := by
  decide

/-- C10: a register frame with a new identity u2 on a connection already
bound to u1 leaves the registry mapping both u1 and u2 to that connection,
and the subsequent close removes only u2, leaving the stale u1 entry. -/
theorem rebind_leaves_stale_entry (st : ServerState) (c : Nat) (u1 u2 fid : String)
    (now : Nat) (h1 : st.clients u1 = some c) (hne : u2 ≠ u1) (hu2 : u2 ≠ "") :
    ((handleFrame st c (some u1) (some (ClientFrame.register (some u2))) fid now).1.clients
      u1 = some c) ∧
    ((handleFrame st c (some u1) (some (ClientFrame.register (some u2))) fid now).1.clients
      u2 = some c) ∧
    ((handleFrame st c (some u1) (some (ClientFrame.register (some u2))) fid now).2.1 =
      some u2) ∧
    ((handleClose
        (handleFrame st c (some u1) (some (ClientFrame.register (some u2))) fid now).1
        (handleFrame st c (some u1) (some (ClientFrame.register (some u2))) fid now).2.1).clients
      u2 = none) ∧
    ((handleClose
        (handleFrame st c (some u1) (some (ClientFrame.register (some u2))) fid now).1
        (handleFrame st c (some u1) (some (ClientFrame.register (some u2))) fid now).2.1).clients
      u1 = some c) := by
  have hne2 : u1 ≠ u2 := fun e => hne e.symm
  refine ⟨?_, ?_, ?_, ?_, ?_⟩
  · simp [handleFrame, isFalsy, hu2, registerUpdate, hne2, h1]
  · simp [handleFrame, isFalsy, hu2, registerUpdate]
  · simp [handleFrame, isFalsy, hu2]
  · simp [handleFrame, isFalsy, hu2, registerUpdate, handleClose]
  · simp [handleFrame, isFalsy, hu2, registerUpdate, handleClose, hne2, h1]

/-- C10 witness at concrete identities and connections. -/
theorem rebind_leaves_stale_entry_witness :
    (let st : ServerState :=
       { clients := fun k => if k = "u1" then some 1 else none,
         queues := fun _ => [], readyState := fun _ => 1 }
     ((handleFrame st 1 (some "u1") (some (ClientFrame.register (some "u2"))) "f" 0).1.clients
       "u1" = some 1) ∧
     ((handleFrame st 1 (some "u1") (some (ClientFrame.register (some "u2"))) "f" 0).1.clients
       "u2" = some 1) ∧
     ((handleFrame st 1 (some "u1") (some (ClientFrame.register (some "u2"))) "f" 0).2.1 =
       some "u2") ∧
     ((handleClose
         (handleFrame st 1 (some "u1") (some (ClientFrame.register (some "u2"))) "f" 0).1
         (handleFrame st 1 (some "u1") (some (ClientFrame.register (some "u2"))) "f" 0).2.1).clients
       "u2" = none) ∧
     ((handleClose
         (handleFrame st 1 (some "u1") (some (ClientFrame.register (some "u2"))) "f" 0).1
         (handleFrame st 1 (some "u1") (some (ClientFrame.register (some "u2"))) "f" 0).2.1).clients
       "u1" = some 1)) :=
  rebind_leaves_stale_entry _ 1 "u1" "u2" "f" 0 rfl (by decide) (by decide)

/-! ### Splitting lemmas for the packed envelopes -/

theorem split_three (x y z : List Nat) (nx ny : Nat)
    (hx : x.length = nx) (hy : y.length = ny) :
    (x ++ y ++ z).take nx = x ∧
    ((x ++ y ++ z).drop nx).take ny = y ∧
    (x ++ y ++ z).drop (nx + ny) = z := by
  have h1 : x ++ y ++ z = x ++ (y ++ z) := by simp
  refine ⟨?_, ?_, ?_⟩
  · rw [h1, List.take_left' hx]
  · rw [h1, List.drop_left' hx, List.take_left' hy]
  · rw [h1, ← hx, List.drop_append ny, List.drop_left' hy]

/-- C1 (amended): for every non-empty plaintext and non-empty password,
decrypting with the same password recovers the plaintext, in both the Node
module (`decryptWithPassword ∘ encryptWithPassword`) and the browser
module, for any primitive satisfying the AES-GCM/PBKDF2 contract. -/
theorem password_roundtrip (A : AEAD) (salt iv pt : List Nat) (pw : String)
    (hs : salt.length = SALT_LENGTH) (hi : iv.length = IV_LENGTH)
    (hpt : pt ≠ []) (hpw : pw ≠ "")
    (hsB : ∀ b ∈ salt, b < 256) (hiB : ∀ b ∈ iv, b < 256)
    (hptB : ∀ b ∈ pt, b < 256) :
    (∃ env, nodeEncryptWithPassword A salt iv pt pw = some env ∧
        nodeDecryptWithPassword A env pw = some pt) ∧
    browserDecryptWithPassword A (browserEncryptWithPassword A salt iv pt pw) pw =
      some pt := by
  have hkey : (A.kdf pw salt).length = KEY_LENGTH := A.kdf_len pw salt
  have hct : (A.enc (A.kdf pw salt) iv pt).1.length = pt.length := A.ct_len _ _ _
  have htag : (A.enc (A.kdf pw salt) iv pt).2.length = AUTH_TAG_LENGTH := A.tag_len _ _ _
  have hptlen : 1 ≤ pt.length := List.length_pos.mpr hpt
  constructor
  · -- Node round trip
    refine ⟨salt ++ (iv ++ (A.enc (A.kdf pw salt) iv pt).2 ++ (A.enc (A.kdf pw salt) iv pt).1),
      ?_, ?_⟩
    · simp [nodeEncryptWithPassword, nodeEncrypt, hpw, hkey]
    · have hsplit := split_three iv (A.enc (A.kdf pw salt) iv pt).2
        (A.enc (A.kdf pw salt) iv pt).1 IV_LENGTH AUTH_TAG_LENGTH hi htag
      have hlen : (salt ++ (iv ++ (A.enc (A.kdf pw salt) iv pt).2 ++
          (A.enc (A.kdf pw salt) iv pt).1)).length =
          SALT_LENGTH + (IV_LENGTH + AUTH_TAG_LENGTH + pt.length) := by
        simp [hs, hi, htag, hct]
        omega
      rw [nodeDecryptWithPassword, if_neg (by
        rw [hlen]
        simp only [SALT_LENGTH, IV_LENGTH, AUTH_TAG_LENGTH]
        omega), if_neg hpw]
      rw [List.take_left' hs, List.drop_left' hs]
      rw [nodeDecrypt, if_neg (by simp [hkey]), if_neg (by
        simp only [List.length_append, hi, htag, hct, IV_LENGTH, AUTH_TAG_LENGTH]
        omega)]
      rw [hsplit.1, hsplit.2.1]
      have h28 : IV_LENGTH + AUTH_TAG_LENGTH = 12 + 16 := rfl
      rw [h28]
      rw [show (12 : Nat) + 16 = IV_LENGTH + AUTH_TAG_LENGTH from rfl, hsplit.2.2]
      exact A.dec_enc _ _ _
  · -- Browser round trip
    have hbytes : ∀ b ∈ salt ++ iv ++
        ((A.enc (A.kdf pw salt) iv pt).1 ++ (A.enc (A.kdf pw salt) iv pt).2), b < 256 := by
      intro b hb
      rcases List.mem_append.mp hb with hb1 | hb2
      · rcases List.mem_append.mp hb1 with hb3 | hb4
        · exact hsB b hb3
        · exact hiB b hb4
      · exact A.enc_bytes _ _ _ hptB b hb2
    have hdata : decodeB64 (browserEncryptWithPassword A salt iv pt pw) =
        salt ++ iv ++ ((A.enc (A.kdf pw salt) iv pt).1 ++ (A.enc (A.kdf pw salt) iv pt).2) := by
      rw [browserEncryptWithPassword]
      exact decodeB64_encodeB64 _ hbytes
    have hsplit2 := split_three salt iv
      ((A.enc (A.kdf pw salt) iv pt).1 ++ (A.enc (A.kdf pw salt) iv pt).2)
      SALT_LENGTH IV_LENGTH hs hi
    have hcwt : ((A.enc (A.kdf pw salt) iv pt).1 ++
        (A.enc (A.kdf pw salt) iv pt).2).length = pt.length + AUTH_TAG_LENGTH := by
      simp [hct, htag]
    rw [browserDecryptWithPassword, hdata, if_neg (by
      simp only [List.length_append, hs, hi, hct, htag,
        SALT_LENGTH, IV_LENGTH, AUTH_TAG_LENGTH]
      omega)]
    rw [hsplit2.1, hsplit2.2.1, hsplit2.2.2]
    simp only [hcwt]
    rw [show pt.length + AUTH_TAG_LENGTH - AUTH_TAG_LENGTH = pt.length from by omega]
    rw [List.take_left' hct, List.drop_left' hct]
    exact A.dec_enc _ _ _

/-- Concrete 32-byte salt and 12-byte nonce used for evaluation. -/
def saltZ : List Nat := List.replicate 32 0

def ivZ : List Nat := List.replicate 12 0

/-- C1 amended-claim witness at a concrete primitive instance and inputs. -/
theorem password_roundtrip_witness :
    (∃ env, nodeEncryptWithPassword toyAEAD saltZ ivZ [1, 2] "pw" = some env ∧
        nodeDecryptWithPassword toyAEAD env "pw" = some [1, 2]) ∧
    browserDecryptWithPassword toyAEAD
      (browserEncryptWithPassword toyAEAD saltZ ivZ [1, 2] "pw") "pw" = some [1, 2] :=
  password_roundtrip toyAEAD saltZ ivZ [1, 2] "pw" (by decide) (by decide)
    (by decide) (by decide) (by decide) (by decide) (by decide)

/-- C1 counterexample: the empty plaintext.  Encryption succeeds in both
modules, but both decryptors reject the resulting envelope as too short
(its length is salt+nonce+tag = 60 < 61), so the round trip does not
return the plaintext — the claim fails for empty P. -/
theorem password_roundtrip_empty_counterexample :
    (nodeEncryptWithPassword toyAEAD saltZ ivZ [] "pw").isSome = true ∧
    (nodeEncryptWithPassword toyAEAD saltZ ivZ [] "pw").bind
      (fun env => nodeDecryptWithPassword toyAEAD env "pw") = none ∧
    browserDecryptWithPassword toyAEAD
      (browserEncryptWithPassword toyAEAD saltZ ivZ [] "pw") "pw" = none := by
  decide

/-- C5 (amended): each module emits a single self-contained blob, but the
byte layouts differ: the browser module packs
salt ‖ nonce ‖ ciphertext ‖ tag (base64-encoded), while the Node module
packs salt ‖ nonce ‖ tag ‖ ciphertext — the 16 tag bytes come before the
ciphertext, not after it. -/
theorem envelope_layout (A : AEAD) (salt iv pt : List Nat) (pw : String)
    (hpw : pw ≠ "") :
    nodeEncryptWithPassword A salt iv pt pw =
      some (salt ++ iv ++ (A.enc (A.kdf pw salt) iv pt).2 ++
        (A.enc (A.kdf pw salt) iv pt).1) ∧
    browserEncryptWithPassword A salt iv pt pw =
      encodeB64 (salt ++ iv ++
        ((A.enc (A.kdf pw salt) iv pt).1 ++ (A.enc (A.kdf pw salt) iv pt).2)) := by
  constructor
  · simp [nodeEncryptWithPassword, nodeEncrypt, hpw, A.kdf_len]
  · rfl

/-- C5 amended-claim witness at a concrete primitive instance and input. -/
theorem envelope_layout_witness :
    nodeEncryptWithPassword toyAEAD saltZ ivZ [7] "pw" =
      some (saltZ ++ ivZ ++ (toyAEAD.enc (toyAEAD.kdf "pw" saltZ) ivZ [7]).2 ++
        (toyAEAD.enc (toyAEAD.kdf "pw" saltZ) ivZ [7]).1) ∧
    browserEncryptWithPassword toyAEAD saltZ ivZ [7] "pw" =
      encodeB64 (saltZ ++ ivZ ++
        ((toyAEAD.enc (toyAEAD.kdf "pw" saltZ) ivZ [7]).1 ++
          (toyAEAD.enc (toyAEAD.kdf "pw" saltZ) ivZ [7]).2)) :=
  envelope_layout toyAEAD saltZ ivZ [7] "pw" (by decide)

/-- C5 counterexample: on a 1-byte plaintext the Node module's envelope is
not the spec's salt ‖ nonce ‖ ciphertext ‖ tag layout (the tag byte block
and the ciphertext byte are swapped). -/
theorem envelope_layout_counterexample :
    nodeEncryptWithPassword toyAEAD saltZ ivZ [7] "pw" ≠
      some (specEnvelopeBytes toyAEAD saltZ ivZ [7] "pw") := by
  decide

end VolatileChat
